import Mathlib

/-!
# Verification of `threestudio/models/renderers/gan_volume_renderer.py`

Shallow embedding of the `GANVolumeRenderer` orchestrator.  Tensors are
modelled symbolically: a tensor carries its shape, a symbolic value
describing the computation that produced its contents, and a buffer
identifier used to reason about aliasing.  Torch operations that allocate
memory draw fresh buffer identifiers from an explicit state; view
operations (`permute`, slicing, `detach`) keep the buffer of their
argument.  Calls to the external networks, to the base renderer, to the
random-integer generator and to the latent distribution are recorded in an
event log, so that "how often was this sampled" and "what was passed to the
generator" are stated about the log.
-/

namespace GANVR

/-- Symbolic tensor contents.  `sym` stands for a caller-supplied tensor,
`baseOut k` for the tensor the base volumetric renderer returned under key
`k`; the remaining constructors mirror the torch operations used in
`GANVolumeRenderer.forward`. -/
inductive TVal where
  | sym (name : String) (idx : Nat)
  | baseOut (k : String)
  | permute (t : TVal) (p : List Nat)
  | interp (t : TVal) (h w : Nat)
  | sliceC (t : TVal) (lo : Nat) (hi : Option Nat)
  | cat2 (a b : TVal)
  | sampleD (params : TVal) (noise : Nat)
  | modeD (params : TVal)
  | globalEnc (t : TVal)
  | localEnc (t : TVal)
  | genApply (x g : TVal)
  deriving DecidableEq, Repr

/-- A tensor: shape, symbolic contents, and the identifier of the buffer
holding the contents (views share the buffer of their base tensor). -/
structure Tensor where
  shape : List Nat
  val : TVal
  buf : Nat
  deriving DecidableEq, Repr

/-- Events recorded while `forward` runs.  `writeEv` would be emitted by an
in-place buffer write; the orchestrator performs none, which is how the
"no side effect" parts of the spec are checked. -/
inductive Event where
  | randEv (v : Nat)
  | baseEv (raysO raysD lightPositions : Tensor) (bgColor : Option Tensor)
  | sampleEv (distId : Nat) (params : TVal)
  | modeEv (distId : Nat) (params : TVal)
  | globalEv (arg : TVal)
  | localEv (arg : TVal)
  | genEv (x g : TVal)
  | writeEv (buf : Nat)
  deriving DecidableEq, Repr

/-- The explicit state threaded through a `forward` call: a fresh-identifier
counter, the stream of values the global random-integer source will return,
and the event log. -/
structure St where
  fresh : Nat
  rng : List Nat
  log : List Event
  deriving DecidableEq, Repr

/-- Draw a fresh buffer / object identifier. -/
def alloc (s : St) : Nat × St :=
  (s.fresh, { s with fresh := s.fresh + 1 })

/-- Append an event to the log. -/
def emit (s : St) (e : Event) : St :=
  { s with log := s.log ++ [e] }

/-- Models `torch.randint(lo, hi, (1,)).item()`: consumes one value of the global
random stream and maps it into `[lo, hi)`. -/
def randint (lo hi : Nat) (s : St) : Nat × St :=
  let v := lo + s.rng.headD 0 % (hi - lo)
  (v, { s with rng := s.rng.tail, log := s.log ++ [.randEv v] })

/-- Shape of a permutation of `sh` by index list `p`. -/
def permShape (sh : List Nat) (p : List Nat) : List Nat :=
  p.map (fun i => sh.getD i 0)

/-- View operation `Tensor.permute`: same buffer, permuted shape. -/
def Tensor.perm (t : Tensor) (p : List Nat) : Tensor :=
  { shape := permShape t.shape p, val := .permute t.val p, buf := t.buf }

/-- Shape produced by `F.interpolate` on an NCHW tensor resized to `(h, w)`:
the two spatial dimensions are replaced by the requested ones. -/
def resizeHW (sh : List Nat) (h w : Nat) : List Nat :=
  match sh with
  | [n, c, _, _] => [n, c, h, w]
  | sh => sh

/-- Bilinear resize `F.interpolate(t, (h, w), mode='bilinear')`: allocates a
fresh buffer. -/
def interpolate (t : Tensor) (h w : Nat) (s : St) : Tensor × St :=
  let (b, s) := alloc s
  ({ shape := resizeHW t.shape h w, val := .interp t.val h w, buf := b }, s)

/-- Channel slice `t[..., lo:]`: a view on the last dimension from `lo`. -/
def sliceLastFrom (t : Tensor) (lo : Nat) : Tensor :=
  { shape := t.shape.dropLast ++ [t.shape.getLastD 0 - lo],
    val := .sliceC t.val lo none, buf := t.buf }

/-- Channel slice `t[..., :hi]`: a view on the last dimension up to `hi`. -/
def sliceLastTo (t : Tensor) (hi : Nat) : Tensor :=
  { shape := t.shape.dropLast ++ [min hi (t.shape.getLastD 0)],
    val := .sliceC t.val 0 (some hi), buf := t.buf }

/-- Clone `t.clone()`: fresh buffer, identical contents and shape. -/
def cloneT (t : Tensor) (s : St) : Tensor × St :=
  let (b, s) := alloc s
  ({ t with buf := b }, s)

/-- Concatenation `torch.cat([a, b], dim=1)` on NCHW tensors: fresh buffer,
channel dimensions added. -/
def catC (a b : Tensor) (s : St) : Tensor × St :=
  let (bf, s) := alloc s
  ({ shape :=
      match a.shape, b.shape with
      | [n, c1, h, w], [_, c2, _, _] => [n, c1 + c2, h, w]
      | sa, _ => sa,
     val := .cat2 a.val b.val, buf := bf }, s)

/-- Channel dimension halved: a diagonal Gaussian built from an NCHW
parameter map splits its channels into mean and log-variance halves, so a
sample has half the channels. -/
def halveC (sh : List Nat) : List Nat :=
  match sh with
  | [n, c, h, w] => [n, c / 2, h, w]
  | sh => sh

/-- Modelled from the spec (`threestudio/utils/GAN/distribution.py` is not
under `src/`): `DiagonalGaussianDistribution` wraps an encoder-convention
parameter map (concatenated mean / log-variance channel groups) into a
latent distribution supporting sampling and mode extraction. -/
structure Dist where
  params : Tensor
  id : Nat
  deriving DecidableEq, Repr

/-- Construction `DiagonalGaussianDistribution(p)`: wraps the parameter
tensor. -/
def mkDist (p : Tensor) (s : St) : Dist × St :=
  let (i, s) := alloc s
  ({ params := p, id := i }, s)

/-- Modelled from the spec: `sample()` draws a reparameterized stochastic
sample; each call consumes fresh noise and allocates a fresh buffer. -/
def Dist.sample (d : Dist) (s : St) : Tensor × St :=
  let (n, s) := alloc s
  let (b, s) := alloc s
  let s := emit s (.sampleEv d.id d.params.val)
  ({ shape := halveC d.params.shape, val := .sampleD d.params.val n, buf := b }, s)

/-- Modelled from the spec: `mode()` is the deterministic alternative to
sampling; it is present in the algebra but never invoked by `forward`
(the corresponding line is commented out in the source). -/
def Dist.mode (d : Dist) (s : St) : Tensor × St :=
  let (b, s) := alloc s
  let s := emit s (.modeEv d.id d.params.val)
  ({ shape := halveC d.params.shape, val := .modeD d.params.val, buf := b }, s)

/-- Modelled from the spec: the global encoder (MobileNetV3, `n_class=64`)
maps a `B×3×224×224` image to a global class code. -/
def globalEncoder (t : Tensor) (s : St) : Tensor × St :=
  let (b, s) := alloc s
  let s := emit s (.globalEv t.val)
  ({ shape := [t.shape.headD 0, 64], val := .globalEnc t.val, buf := b }, s)

/-- Modelled from the spec: the local encoder maps a `B×3×h×w` image to a
fine-grained latent code map. -/
def localEncoder (t : Tensor) (s : St) : Tensor × St :=
  let (b, s) := alloc s
  let s := emit s (.localEv t.val)
  ({ shape :=
      match t.shape with
      | [n, _, h, w] => [n, 32, h / 4, w / 4]
      | sh => sh,
     val := .localEnc t.val, buf := b }, s)

/-- Modelled from the spec: the generator maps the channel-concatenated
input plus a global conditioning code to a refined RGB image at its native
(4×-upsampled) output resolution. -/
def generator (x g : Tensor) (s : St) : Tensor × St :=
  let (b, s) := alloc s
  let s := emit s (.genEv x.val g.val)
  ({ shape :=
      match x.shape with
      | [n, _, h, w] => [n, 3, 4 * h, 4 * w]
      | sh => sh,
     val := .genApply x.val g.val, buf := b }, s)

/-- An output record entry: a tensor, an optional tensor (the echoed ground
truth may be `None`), a distribution object, or the integer guidance level. -/
inductive Entry where
  | ten (t : Tensor)
  | optTen (t : Option Tensor)
  | dist (d : Dist)
  | level (n : Nat)
  deriving DecidableEq, Repr

/-- Assignment `r[k] = v` on a python dict modelled as an insertion-ordered
association list: replace in place if the key is present, append
otherwise. -/
def recSet (r : List (String × Entry)) (k : String) (v : Entry) :
    List (String × Entry) :=
  match r with
  | [] => [(k, v)]
  | p :: r => if p.1 = k then (k, v) :: r else p :: recSet r k v

/-- Lookup `r[k]` on the modelled dict. -/
def recGet (r : List (String × Entry)) (k : String) : Option Entry :=
  match r with
  | [] => none
  | p :: r => if p.1 = k then some p.2 else recGet r k

/-- The record returned by the base volumetric renderer: one entry per key
in `baseKeys`, each a freshly allocated tensor whose shape is given by the
external collaborator's contract `baseShape`. -/
def mkBaseRec (baseShape : String → List Nat) :
    List String → Nat → List (String × Entry)
  | [], _ => []
  | k :: ks, f =>
      (k, Entry.ten { shape := baseShape k, val := .baseOut k, buf := f }) ::
        mkBaseRec baseShape ks (f + 1)

/-- Invocation `self.base_renderer(rays_o, rays_d, light_positions,
bg_color, **kwargs)`:
records the call and produces the base output record with fresh buffers. -/
def baseCall (baseShape : String → List Nat) (baseKeys : List String)
    (raysO raysD lightPositions : Tensor) (bgColor : Option Tensor) (s : St) :
    List (String × Entry) × St :=
  let s := emit s (.baseEv raysO raysD lightPositions bgColor)
  (mkBaseRec baseShape baseKeys s.fresh,
   { s with fresh := s.fresh + baseKeys.length })

/-- The guidance-level branch of `forward` (the `if generator_level == 0 /
elif == 1 / elif == 2` chain).  Returns the posterior whose sample was fed
to the generator (at level 2 the variable `posterior` is rebound to the
local-encoder distribution), the raw generator output, and the state.
A level `≥ 3`, or a ground-truth-dependent level with absent ground truth,
is a runtime error in the python code. -/
def levelBranch (generatorLevel : Nat) (gtRGB : Option Tensor)
    (lrRGB zMap : Tensor) (posterior : Dist) (s : St) :
    Except String (Dist × Tensor × St) :=
  match generatorLevel, gtRGB with
  | 0, _ =>
      let (lrSmall, s) := interpolate lrRGB 224 224 s
      let (gCode, s) := globalEncoder lrSmall s
      let (x, s) := catC lrRGB zMap s
      let (ganRGB, s) := generator x gCode s
      .ok (posterior, ganRGB, s)
  | 1, some gt =>
      let (gtSmall, s) := interpolate (Tensor.perm gt [0, 3, 1, 2]) 224 224 s
      let (gCode, s) := globalEncoder gtSmall s
      let (x, s) := catC lrRGB zMap s
      let (ganRGB, s) := generator x gCode s
      .ok (posterior, ganRGB, s)
  | 2, some gt =>
      let (gtSmall, s) := interpolate (Tensor.perm gt [0, 3, 1, 2]) 224 224 s
      let (gCode, s) := globalEncoder gtSmall s
      let (lCode, s) := localEncoder (Tensor.perm gt [0, 3, 1, 2]) s
      let (posterior2, s) := mkDist lCode s
      let (zMap2, s) := Dist.sample posterior2 s
      let (x, s) := catC lrRGB zMap2 s
      let (ganRGB, s) := generator x gCode s
      .ok (posterior2, ganRGB, s)
  | _, _ => .error "undefined branch"

/-- The part of `GANVolumeRenderer.forward` that runs after the base
renderer returned (source lines 79–111), given the tensor found under the
base output's `comp_rgb` key. -/
def afterBase (H W generatorLevel : Nat) (gtRGB : Option Tensor)
    (out : List (String × Entry)) (compFull : Tensor) (s : St) :
    Except String (List (String × Entry) × St) :=
  let compRGB := sliceLastTo compFull 3
  let latent := sliceLastFrom compFull 3
  let (lrClone, s) := cloneT compRGB s
  let out := recSet out "comp_lr_rgb" (.ten lrClone)
  let (posterior, s) := mkDist (Tensor.perm latent [0, 3, 1, 2]) s
  let (zMap, s) := Dist.sample posterior s
  let lrRGB := Tensor.perm compRGB [0, 3, 1, 2]
  match levelBranch generatorLevel gtRGB lrRGB zMap posterior s with
  | .error e => .error e
  | .ok (posteriorF, ganRGB, s) =>
      let (up, s) := interpolate (Tensor.perm compRGB [0, 3, 1, 2]) H W s
      let out := recSet out "posterior" (.dist posteriorF)
      let out := recSet out "comp_gan_rgb" (.ten (Tensor.perm ganRGB [0, 2, 3, 1]))
      let out := recSet out "comp_rgb" (.ten (Tensor.perm up [0, 2, 3, 1]))
      let out := recSet out "generator_level" (.level generatorLevel)
      .ok (out, s)

/-- The embedding of `GANVolumeRenderer.forward`.  `baseShape` and `baseKeys`
describe the external base renderer's output contract; the remaining
arguments mirror the python argument list, except that the opaque
pass-through `**kwargs` (consumed only by the base renderer) are omitted.
`detach()` is a view (same buffer and contents), so `lr_rgb` is
represented by the permuted view directly. -/
def forward (baseShape : String → List Nat) (baseKeys : List String)
    (raysO raysD lightPositions : Tensor) (bgColor : Option Tensor)
    (gtRGB : Option Tensor) (multiLevelGuidance : Bool) (s : St) :
    Except String (List (String × Entry) × St) :=
  match raysO.shape with
  | [_, H, W, _] =>
      let (generatorLevel, s) :=
        if gtRGB.isSome && multiLevelGuidance then randint 0 3 s else (0, s)
      let (ro, s) := interpolate (Tensor.perm raysO [0, 3, 1, 2]) (H / 4) (W / 4) s
      let raysO' := Tensor.perm ro [0, 2, 3, 1]
      let (rd, s) := interpolate (Tensor.perm raysD [0, 3, 1, 2]) (H / 4) (W / 4) s
      let raysD' := Tensor.perm rd [0, 2, 3, 1]
      let (out, s) := baseCall baseShape baseKeys raysO' raysD' lightPositions bgColor s
      let out := recSet out "comp_gt_rgb" (.optTen gtRGB)
      match recGet out "comp_rgb" with
      | some (.ten compFull) => afterBase H W generatorLevel gtRGB out compFull s
      | _ => .error "comp_rgb missing"
  | _ => .error "rays_o shape"

/-- The output record of a successful forward call. -/
def recOf : Except String (List (String × Entry) × St) → Option (List (String × Entry))
  | .ok (r, _) => some r
  | .error _ => none

/-- The final state of a successful forward call. -/
def stOf : Except String (List (String × Entry) × St) → Option St
  | .ok (_, s) => some s
  | .error _ => none

/-- Lookup of a key in the output record of a forward result. -/
def getKey (res : Except String (List (String × Entry) × St)) (k : String) :
    Option Entry :=
  (recOf res).bind (fun r => recGet r k)

/-- The generator invocations recorded in a log (input and global code). -/
def genCalls : List Event → List (TVal × TVal)
  | [] => []
  | .genEv x g :: l => (x, g) :: genCalls l
  | _ :: l => genCalls l

/-- The base-renderer invocations recorded in a log. -/
def baseCalls : List Event → List (Tensor × Tensor × Tensor × Option Tensor)
  | [] => []
  | .baseEv a b c d :: l => (a, b, c, d) :: baseCalls l
  | _ :: l => baseCalls l

/-- The values consumed from the random-integer source, in order. -/
def randDraws : List Event → List Nat
  | [] => []
  | .randEv v :: l => v :: randDraws l
  | _ :: l => randDraws l

/-- The buffers written in place, in order (the orchestrator performs no
in-place write, so this stays empty). -/
def writeList : List Event → List Nat
  | [] => []
  | .writeEv b :: l => b :: writeList l
  | _ :: l => writeList l

/-- How often a distribution with parameter map `p` was sampled. -/
def countSampleOf (p : TVal) : List Event → Nat
  | [] => 0
  | .sampleEv _ q :: l => (if q = p then 1 else 0) + countSampleOf p l
  | _ :: l => countSampleOf p l

/-- How often any distribution's deterministic `mode()` was evaluated. -/
def countMode : List Event → Nat
  | [] => 0
  | .modeEv _ _ :: l => countMode l + 1
  | _ :: l => countMode l

/-- A heap assigning contents to buffer identifiers, used to express
observable (non-)aliasing: writing into one buffer must not change what is
observed through a tensor backed by a different buffer. -/
def writeBuf (h : Nat → TVal) (b : Nat) (v : TVal) : Nat → TVal :=
  fun b' => if b' = b then v else h b'

/-- The contents observed through a tensor: what its buffer holds. -/
def observeBuf (h : Nat → TVal) (t : Tensor) : TVal :=
  h t.buf

/-- The orchestrator's state: the wrapped base renderer (abstract state
type `σ`) plus the four network modules it owns, which `update_step`,
`train` and `eval` never touch. -/
structure GANVolumeRenderer (σ : Type) where
  base : σ
  generatorModule : Nat
  localEncoderModule : Nat
  globalEncoderModule : Nat
  discriminatorModule : Nat
  deriving DecidableEq, Repr

/-- Lifecycle `update_step`: delegates to `self.base_renderer.update_step`;
the base renderer's transition function `bu` is the external
collaborator. -/
def GANVolumeRenderer.updateStep (bu : σ → Nat → Nat → Bool → σ)
    (r : GANVolumeRenderer σ) (epoch globalStep : Nat)
    (onLoadWeights : Bool) : GANVolumeRenderer σ :=
  { r with base := bu r.base epoch globalStep onLoadWeights }

/-- Lifecycle `train(mode)`: delegates to `self.base_renderer.train(mode)`
and, as in the source, returns the base renderer's own return value (torch
modules return `self`, i.e. the updated base renderer). -/
def GANVolumeRenderer.trainM (bt : σ → Bool → σ) (r : GANVolumeRenderer σ)
    (mode : Bool) : GANVolumeRenderer σ × σ :=
  ({ r with base := bt r.base mode }, bt r.base mode)

/-- Lifecycle `eval()`: delegates to `self.base_renderer.eval()`; a torch
module's `eval` is `train(False)`. -/
def GANVolumeRenderer.evalM (bt : σ → Bool → σ) (r : GANVolumeRenderer σ) :
    GANVolumeRenderer σ × σ :=
  GANVolumeRenderer.trainM bt r false

/-! Concrete instantiations used by the witnesses: a 1×8×8 ray bundle, a
base renderer returning `comp_rgb` (3 RGB + 16 latent channels at quarter
resolution) and `opacity`. -/

def bsW : String → List Nat := fun k => if k = "comp_rgb" then [1, 2, 2, 19] else [1]

def ksW : List String := ["comp_rgb", "opacity"]

def roW : Tensor := ⟨[1, 8, 8, 3], .sym "rays_o" 0, 0⟩

def rdW : Tensor := ⟨[1, 8, 8, 3], .sym "rays_d" 0, 1⟩

def lpW : Tensor := ⟨[1, 3], .sym "light" 0, 2⟩

def gtW : Tensor := ⟨[1, 8, 8, 3], .sym "gt" 0, 3⟩

def stW : St := ⟨10, [5], []⟩

/-- Contents of `lr_rgb`, the detached low-res RGB fed to the generator:
channels `[0:3]` of the base `comp_rgb`, permuted to NCHW. -/
def lrFedVal : TVal :=
  .permute (.sliceC (.baseOut "comp_rgb") 0 (some 3)) [0, 3, 1, 2]

/-- Parameter map of the base-renderer-derived posterior: channels `[3:]`
of the base `comp_rgb`, permuted to NCHW. -/
def basePosteriorVal : TVal :=
  .permute (.sliceC (.baseOut "comp_rgb") 3 none) [0, 3, 1, 2]

/-- Parameter map of the level-2 posterior: the local encoder applied to
the NCHW-permuted ground truth of contents `gv`. -/
def localPosteriorVal (gv : TVal) : TVal :=
  .localEnc (.permute gv [0, 3, 1, 2])

/-- The buffer identifier backing the tensor stored under key `k`. -/
def bufOfKey (res : Except String (List (String × Entry) × St)) (k : String) :
    Option Nat :=
  match getKey res k with
  | some (.ten t) => some t.buf
  | _ => none

/-- The parameter-map contents of the distribution stored under the
record's `posterior` key. -/
def posteriorParamsVal (res : Except String (List (String × Entry) × St)) :
    Option TVal :=
  match getKey res "posterior" with
  | some (.dist d) => some d.params.val
  | _ => none

@[simp]
theorem recGet_recSet_self (r : List (String × Entry)) (k : String) (v : Entry) :
    recGet (recSet r k v) k = some v := by
  induction r with
  | nil => simp [recSet, recGet]
  | cons p r ih =>
    by_cases hp : p.1 = k
    · simp [recSet, recGet, hp]
    · simp [recSet, recGet, hp, ih]

theorem recGet_recSet_ne (r : List (String × Entry)) (k k' : String)
    (v : Entry) (hne : k' ≠ k) : recGet (recSet r k v) k' = recGet r k' := by
  induction r with
  | nil => simp [recSet, recGet, Ne.symm hne]
  | cons p r ih =>
    by_cases hp : p.1 = k
    · have hp' : ¬ p.1 = k' := fun h => hne (h.symm.trans hp)
      simp [recSet, recGet, hp, hp', Ne.symm hne]
    · by_cases hq : p.1 = k'
      · simp [recSet, recGet, hp, hq, hne]
      · simp [recSet, recGet, hp, hq, ih]

theorem mem_mkBaseRec_recGet (bs : String → List Nat) (ks : List String)
    (k : String) (f : Nat) (hk : k ∈ ks) :
    ∃ j, j < ks.length ∧
      recGet (mkBaseRec bs ks f) k =
        some (.ten { shape := bs k, val := .baseOut k, buf := f + j }) := by
  induction ks generalizing f with
  | nil => cases hk
  | cons k0 ks ih =>
    by_cases h0 : k0 = k
    · exact ⟨0, by simp, by simp [mkBaseRec, recGet, h0]⟩
    · have hk' : k ∈ ks := by
        rcases List.mem_cons.mp hk with h | h
        · exact absurd h.symm h0
        · exact h
      obtain ⟨j, hj, hget⟩ := ih (f + 1) hk'
      refine ⟨j + 1, by simpa using Nat.succ_lt_succ hj, ?_⟩
      have hadd : f + 1 + j = f + (j + 1) := by omega
      rw [hadd] at hget
      simpa [mkBaseRec, recGet, h0] using hget

@[simp]
theorem genCalls_append (l1 l2 : List Event) :
    genCalls (l1 ++ l2) = genCalls l1 ++ genCalls l2 := by
  induction l1 with
  | nil => rfl
  | cons e l ih => cases e <;> simp [genCalls, ih]

@[simp]
theorem baseCalls_append (l1 l2 : List Event) :
    baseCalls (l1 ++ l2) = baseCalls l1 ++ baseCalls l2 := by
  induction l1 with
  | nil => rfl
  | cons e l ih => cases e <;> simp [baseCalls, ih]

@[simp]
theorem randDraws_append (l1 l2 : List Event) :
    randDraws (l1 ++ l2) = randDraws l1 ++ randDraws l2 := by
  induction l1 with
  | nil => rfl
  | cons e l ih => cases e <;> simp [randDraws, ih]

@[simp]
theorem writeList_append (l1 l2 : List Event) :
    writeList (l1 ++ l2) = writeList l1 ++ writeList l2 := by
  induction l1 with
  | nil => rfl
  | cons e l ih => cases e <;> simp [writeList, ih]

@[simp]
theorem countSampleOf_append (p : TVal) (l1 l2 : List Event) :
    countSampleOf p (l1 ++ l2) = countSampleOf p l1 + countSampleOf p l2 := by
  induction l1 with
  | nil => simp [countSampleOf]
  | cons e l ih => cases e <;> simp [countSampleOf, ih] <;> omega

@[simp]
theorem countMode_append (l1 l2 : List Event) :
    countMode (l1 ++ l2) = countMode l1 + countMode l2 := by
  induction l1 with
  | nil => simp [countMode]
  | cons e l ih => cases e <;> simp [countMode, ih] <;> omega

theorem observeBuf_writeBuf_ne (h : Nat → TVal) (t : Tensor) (b : Nat)
    (v : TVal) (hne : t.buf ≠ b) :
    observeBuf (writeBuf h b v) t = observeBuf h t := by
  simp [observeBuf, writeBuf, hne]

/-- C1: whenever the ground-truth image is absent (`None`), the chosen
guidance level is 0 and the returned record's `generator_level` key equals
0, regardless of the `multi_level_guidance` flag (which is universally
quantified here). -/
theorem absent_gt_forces_level_zero (bs : String → List Nat) (ks : List String)
    (B H W c : Nat) (vo : TVal) (bo : Nat) (raysD lightPositions : Tensor)
    (bgColor : Option Tensor) (mlg : Bool) (s : St)
    (hks : "comp_rgb" ∈ ks) :
    getKey (forward bs ks ⟨[B, H, W, c], vo, bo⟩ raysD lightPositions bgColor
      none mlg s) "generator_level" = some (.level 0) := by
  obtain ⟨j, hj, hget⟩ := mem_mkBaseRec_recGet bs ks "comp_rgb" (s.fresh + 1 + 1) hks
  simp only [forward, Option.isSome_none, Bool.false_and, if_neg, Bool.false_eq_true,
    not_false_iff, interpolate, alloc, emit, baseCall, randint, Tensor.perm]
  rw [recGet_recSet_ne _ _ _ _ (by decide)]
  rw [hget]
  simp only [afterBase, levelBranch, cloneT, mkDist, Dist.sample, catC, generator,
    globalEncoder, localEncoder, interpolate, alloc, emit, Tensor.perm, getKey, recOf,
    recGet_recSet_self, Option.some_bind]

theorem absent_gt_forces_level_zero_witness :
    getKey (forward bsW ksW ⟨[1, 8, 8, 3], .sym "rays_o" 0, 0⟩ rdW lpW none
      none true stW) "generator_level" = some (.level 0) :=
  absent_gt_forces_level_zero bsW ksW 1 8 8 3 (.sym "rays_o" 0) 0 rdW lpW
    none true stW (by decide)

/-- C3: when ground truth is present and `multi_level_guidance` is set, the
guidance level comes from a single size-1 random integer draw uniform over
`{0,1,2}` (the level is the next stream value reduced mod 3, exactly one
stream value is consumed, and exactly one draw is recorded); in every other
case the level is forced to 0, the stream is untouched and no draw is
recorded.  The call is a pure function of its arguments and the explicit
stream position, so successive calls redraw independently with no carried
state. -/
theorem level_draw_contract (bs : String → List Nat) (ks : List String)
    (B H W c : Nat) (vo : TVal) (bo : Nat) (raysD lightPositions : Tensor)
    (bgColor gtRGB : Option Tensor) (mlg : Bool) (s : St)
    (hks : "comp_rgb" ∈ ks) :
    ((gtRGB.isSome && mlg) = true →
      getKey (forward bs ks ⟨[B, H, W, c], vo, bo⟩ raysD lightPositions bgColor
          gtRGB mlg s) "generator_level" = some (.level (s.rng.headD 0 % 3)) ∧
      s.rng.headD 0 % 3 < 3 ∧
      (stOf (forward bs ks ⟨[B, H, W, c], vo, bo⟩ raysD lightPositions bgColor
          gtRGB mlg s)).map St.rng = some s.rng.tail ∧
      (stOf (forward bs ks ⟨[B, H, W, c], vo, bo⟩ raysD lightPositions bgColor
          gtRGB mlg s)).map (fun t => randDraws t.log) =
        some (randDraws s.log ++ [s.rng.headD 0 % 3])) ∧
    ((gtRGB.isSome && mlg) = false →
      getKey (forward bs ks ⟨[B, H, W, c], vo, bo⟩ raysD lightPositions bgColor
          gtRGB mlg s) "generator_level" = some (.level 0) ∧
      (stOf (forward bs ks ⟨[B, H, W, c], vo, bo⟩ raysD lightPositions bgColor
          gtRGB mlg s)).map St.rng = some s.rng ∧
      (stOf (forward bs ks ⟨[B, H, W, c], vo, bo⟩ raysD lightPositions bgColor
          gtRGB mlg s)).map (fun t => randDraws t.log) = some (randDraws s.log)) := by
  obtain ⟨j, hj, hget⟩ := mem_mkBaseRec_recGet bs ks "comp_rgb" (s.fresh + 1 + 1) hks
  constructor
  · intro hc
    rcases gtRGB with _ | g
    · simp at hc
    have hlt : s.rng.headD 0 % 3 < 3 := Nat.mod_lt _ (by norm_num)
    simp only [Option.isSome_some, Bool.true_and] at hc
    rcases hv : s.rng.headD 0 % 3 with _ | _ | _ | n
    any_goals omega
    all_goals (
      simp only [forward, Option.isSome_some, Bool.true_and, hc, if_true, randint,
        Nat.zero_add, Nat.sub_zero, hv, interpolate, alloc, emit, baseCall, Tensor.perm]
      rw [recGet_recSet_ne _ _ _ _ (by decide)]
      rw [hget]
      simp [afterBase, levelBranch, cloneT, mkDist, Dist.sample, catC, generator, sliceLastTo, sliceLastFrom,
        globalEncoder, localEncoder, interpolate, alloc, emit, Tensor.perm, getKey,
        recOf, stOf, recGet_recSet_self, randDraws])
  · intro hc
    rcases gtRGB with _ | g
    · simp only [forward, Option.isSome_none, Bool.false_and, Bool.false_eq_true,
        if_false, interpolate, alloc, emit, baseCall, randint, Tensor.perm]
      rw [recGet_recSet_ne _ _ _ _ (by decide)]
      rw [hget]
      simp [afterBase, levelBranch, cloneT, mkDist, Dist.sample, catC, generator, sliceLastTo, sliceLastFrom,
        globalEncoder, localEncoder, interpolate, alloc, emit, Tensor.perm, getKey,
        recOf, stOf, recGet_recSet_self, randDraws]
    · simp only [Option.isSome_some, Bool.true_and] at hc
      simp only [forward, Option.isSome_some, Bool.true_and, hc, Bool.false_eq_true,
        if_false, interpolate, alloc, emit, baseCall, randint, Tensor.perm]
      rw [recGet_recSet_ne _ _ _ _ (by decide)]
      rw [hget]
      simp [afterBase, levelBranch, cloneT, mkDist, Dist.sample, catC, generator, sliceLastTo, sliceLastFrom,
        globalEncoder, localEncoder, interpolate, alloc, emit, Tensor.perm, getKey,
        recOf, stOf, recGet_recSet_self, randDraws]

theorem level_draw_contract_witness :
    ((((some gtW).isSome && true) = true →
      getKey (forward bsW ksW ⟨[1, 8, 8, 3], .sym "rays_o" 0, 0⟩ rdW lpW none
          (some gtW) true stW) "generator_level" =
        some (.level (stW.rng.headD 0 % 3)) ∧
      stW.rng.headD 0 % 3 < 3 ∧
      (stOf (forward bsW ksW ⟨[1, 8, 8, 3], .sym "rays_o" 0, 0⟩ rdW lpW none
          (some gtW) true stW)).map St.rng = some stW.rng.tail ∧
      (stOf (forward bsW ksW ⟨[1, 8, 8, 3], .sym "rays_o" 0, 0⟩ rdW lpW none
          (some gtW) true stW)).map (fun t => randDraws t.log) =
        some (randDraws stW.log ++ [stW.rng.headD 0 % 3])) ∧
    (((some gtW).isSome && true) = false →
      getKey (forward bsW ksW ⟨[1, 8, 8, 3], .sym "rays_o" 0, 0⟩ rdW lpW none
          (some gtW) true stW) "generator_level" = some (.level 0) ∧
      (stOf (forward bsW ksW ⟨[1, 8, 8, 3], .sym "rays_o" 0, 0⟩ rdW lpW none
          (some gtW) true stW)).map St.rng = some stW.rng ∧
      (stOf (forward bsW ksW ⟨[1, 8, 8, 3], .sym "rays_o" 0, 0⟩ rdW lpW none
          (some gtW) true stW)).map (fun t => randDraws t.log) =
        some (randDraws stW.log))) :=
  level_draw_contract bsW ksW 1 8 8 3 (.sym "rays_o" 0) 0 rdW lpW none
    (some gtW) true stW (by decide)

/-- C2: exactly one generator call happens per forward call; its first
argument is the channel concatenation of the detached low-res RGB with a
latent sample `z`.  At level 2, `z` is a sample of the distribution built
from the local encoder's output on the ground-truth RGB and is not a sample
of the base-renderer-derived distribution; at any other level it is the
sample of the base-renderer-derived distribution. -/
theorem generator_latent_source_by_level (bs : String → List Nat)
    (ks : List String) (B H W c : Nat) (vo : TVal) (bo : Nat)
    (raysD lightPositions : Tensor) (bgColor gtRGB : Option Tensor)
    (mlg : Bool) (s : St) (hks : "comp_rgb" ∈ ks) :
    ∃ z g,
      (stOf (forward bs ks ⟨[B, H, W, c], vo, bo⟩ raysD lightPositions bgColor
          gtRGB mlg s)).map (fun t => genCalls t.log) =
        some (genCalls s.log ++ [(.cat2 lrFedVal z, g)]) ∧
      ((if gtRGB.isSome && mlg then s.rng.headD 0 % 3 else 0) = 2 →
        ∃ gt0 m, gtRGB = some gt0 ∧ z = .sampleD (localPosteriorVal gt0.val) m ∧
          ∀ m', z ≠ .sampleD basePosteriorVal m') ∧
      ((if gtRGB.isSome && mlg then s.rng.headD 0 % 3 else 0) ≠ 2 →
        ∃ m, z = .sampleD basePosteriorVal m) := by
  obtain ⟨j, hj, hget⟩ := mem_mkBaseRec_recGet bs ks "comp_rgb" (s.fresh + 1 + 1) hks
  rcases gtRGB with _ | g0
  · refine ⟨.sampleD basePosteriorVal (s.fresh + 1 + 1 + ks.length + 1 + 1),
      .globalEnc (.interp lrFedVal 224 224), ?_, ?_, ?_⟩
    · simp only [forward, Option.isSome_none, Bool.false_and, Bool.false_eq_true,
        if_false, interpolate, alloc, emit, baseCall, randint, Tensor.perm]
      rw [recGet_recSet_ne _ _ _ _ (by decide), hget]
      simp [afterBase, levelBranch, cloneT, mkDist, Dist.sample, catC, generator, sliceLastTo, sliceLastFrom,
        globalEncoder, localEncoder, interpolate, alloc, emit, Tensor.perm, stOf,
        genCalls, lrFedVal, basePosteriorVal]
    · intro h
      simp at h
    · intro _
      exact ⟨_, rfl⟩
  · rcases mlg with _ | _
    · refine ⟨.sampleD basePosteriorVal (s.fresh + 1 + 1 + ks.length + 1 + 1),
        .globalEnc (.interp lrFedVal 224 224), ?_, ?_, ?_⟩
      · simp only [forward, Option.isSome_some, Bool.and_false, Bool.false_eq_true,
          if_false, interpolate, alloc, emit, baseCall, randint, Tensor.perm]
        rw [recGet_recSet_ne _ _ _ _ (by decide), hget]
        simp [afterBase, levelBranch, cloneT, mkDist, Dist.sample, catC, generator, sliceLastTo, sliceLastFrom,
          globalEncoder, localEncoder, interpolate, alloc, emit, Tensor.perm, stOf,
          genCalls, lrFedVal, basePosteriorVal]
      · intro h
        simp at h
      · intro _
        exact ⟨_, rfl⟩
    · have hlt : s.rng.headD 0 % 3 < 3 := Nat.mod_lt _ (by norm_num)
      rcases hv : s.rng.headD 0 % 3 with _ | _ | _ | n
      · refine ⟨.sampleD basePosteriorVal (s.fresh + 1 + 1 + ks.length + 1 + 1),
          .globalEnc (.interp lrFedVal 224 224), ?_, ?_, ?_⟩
        · simp only [forward, Option.isSome_some, Bool.true_and, Bool.and_true,
            if_true, randint, Nat.zero_add, Nat.sub_zero, hv, interpolate, alloc,
            emit, baseCall, Tensor.perm]
          rw [recGet_recSet_ne _ _ _ _ (by decide), hget]
          simp [afterBase, levelBranch, cloneT, mkDist, Dist.sample, catC, generator, sliceLastTo, sliceLastFrom,
            globalEncoder, localEncoder, interpolate, alloc, emit, Tensor.perm, stOf,
            genCalls, lrFedVal, basePosteriorVal]
        · intro h
          simp [hv] at h
        · intro _
          exact ⟨_, rfl⟩
      · refine ⟨.sampleD basePosteriorVal (s.fresh + 1 + 1 + ks.length + 1 + 1),
          .globalEnc (.interp (.permute g0.val [0, 3, 1, 2]) 224 224), ?_, ?_, ?_⟩
        · simp only [forward, Option.isSome_some, Bool.true_and, Bool.and_true,
            if_true, randint, Nat.zero_add, Nat.sub_zero, hv, interpolate, alloc,
            emit, baseCall, Tensor.perm]
          rw [recGet_recSet_ne _ _ _ _ (by decide), hget]
          simp [afterBase, levelBranch, cloneT, mkDist, Dist.sample, catC, generator, sliceLastTo, sliceLastFrom,
            globalEncoder, localEncoder, interpolate, alloc, emit, Tensor.perm, stOf,
            genCalls, lrFedVal, basePosteriorVal]
        · intro h
          simp [hv] at h
        · intro _
          exact ⟨_, rfl⟩
      · refine ⟨.sampleD (localPosteriorVal g0.val)
            (s.fresh + 1 + 1 + ks.length + 1 + 1 + 1 + 1 + 1 + 1 + 1 + 1),
          .globalEnc (.interp (.permute g0.val [0, 3, 1, 2]) 224 224), ?_, ?_, ?_⟩
        · simp only [forward, Option.isSome_some, Bool.true_and, Bool.and_true,
            if_true, randint, Nat.zero_add, Nat.sub_zero, hv, interpolate, alloc,
            emit, baseCall, Tensor.perm]
          rw [recGet_recSet_ne _ _ _ _ (by decide), hget]
          simp [afterBase, levelBranch, cloneT, mkDist, Dist.sample, catC, generator, sliceLastTo, sliceLastFrom,
            globalEncoder, localEncoder, interpolate, alloc, emit, Tensor.perm, stOf,
            genCalls, lrFedVal, basePosteriorVal, localPosteriorVal]
        · intro _
          refine ⟨g0, _, rfl, rfl, ?_⟩
          intro m' hEq
          simp [localPosteriorVal, basePosteriorVal] at hEq
        · intro h
          simp [hv] at h
      · omega

theorem generator_latent_source_by_level_witness :
    ∃ z g,
      (stOf (forward bsW ksW ⟨[1, 8, 8, 3], .sym "rays_o" 0, 0⟩ rdW lpW none
          (some gtW) true stW)).map (fun t => genCalls t.log) =
        some (genCalls stW.log ++ [(.cat2 lrFedVal z, g)]) ∧
      ((if (some gtW).isSome && true then stW.rng.headD 0 % 3 else 0) = 2 →
        ∃ gt0 m, some gtW = some gt0 ∧ z = .sampleD (localPosteriorVal gt0.val) m ∧
          ∀ m', z ≠ .sampleD basePosteriorVal m') ∧
      ((if (some gtW).isSome && true then stW.rng.headD 0 % 3 else 0) ≠ 2 →
        ∃ m, z = .sampleD basePosteriorVal m) :=
  generator_latent_source_by_level bsW ksW 1 8 8 3 (.sym "rays_o" 0) 0 rdW lpW
    none (some gtW) true stW (by decide)

theorem recGet_recSet_isSome (r : List (String × Entry)) (k k' : String)
    (v : Entry) (h : (recGet r k).isSome) :
    (recGet (recSet r k' v) k).isSome := by
  by_cases hk : k = k'
  · subst hk
    simp
  · rw [recGet_recSet_ne _ _ _ _ hk]
    exact h

/-- All record-level facts of the output contract, proved once about the
update chain that `forward` builds on top of the base record: every base
key is still present, every key the orchestrator does not touch keeps the
base record's value, and the five augmentation keys are present with their
expected entry kinds. -/
theorem record_contract_core (bs : String → List Nat) (ks : List String)
    (f : Nat) (gt : Option Tensor) (t2 t4 t5 : Tensor) (d : Dist)
    (lvl : Nat) (st : St) :
    (∀ k, k ∈ ks →
      (getKey (.ok (recSet (recSet (recSet (recSet (recSet (recSet
        (mkBaseRec bs ks f) "comp_gt_rgb" (.optTen gt)) "comp_lr_rgb"
        (.ten t2)) "posterior" (.dist d)) "comp_gan_rgb" (.ten t4))
        "comp_rgb" (.ten t5)) "generator_level" (.level lvl), st)) k).isSome) ∧
    (∀ k, k ∉ ["comp_gt_rgb", "comp_lr_rgb", "posterior", "comp_gan_rgb",
        "comp_rgb", "generator_level"] →
      getKey (.ok (recSet (recSet (recSet (recSet (recSet (recSet
        (mkBaseRec bs ks f) "comp_gt_rgb" (.optTen gt)) "comp_lr_rgb"
        (.ten t2)) "posterior" (.dist d)) "comp_gan_rgb" (.ten t4))
        "comp_rgb" (.ten t5)) "generator_level" (.level lvl), st)) k =
        recGet (mkBaseRec bs ks f) k) ∧
    getKey (.ok (recSet (recSet (recSet (recSet (recSet (recSet
      (mkBaseRec bs ks f) "comp_gt_rgb" (.optTen gt)) "comp_lr_rgb"
      (.ten t2)) "posterior" (.dist d)) "comp_gan_rgb" (.ten t4))
      "comp_rgb" (.ten t5)) "generator_level" (.level lvl), st))
      "comp_rgb" = some (.ten t5) ∧
    getKey (.ok (recSet (recSet (recSet (recSet (recSet (recSet
      (mkBaseRec bs ks f) "comp_gt_rgb" (.optTen gt)) "comp_lr_rgb"
      (.ten t2)) "posterior" (.dist d)) "comp_gan_rgb" (.ten t4))
      "comp_rgb" (.ten t5)) "generator_level" (.level lvl), st))
      "comp_lr_rgb" = some (.ten t2) ∧
    getKey (.ok (recSet (recSet (recSet (recSet (recSet (recSet
      (mkBaseRec bs ks f) "comp_gt_rgb" (.optTen gt)) "comp_lr_rgb"
      (.ten t2)) "posterior" (.dist d)) "comp_gan_rgb" (.ten t4))
      "comp_rgb" (.ten t5)) "generator_level" (.level lvl), st))
      "comp_gan_rgb" = some (.ten t4) ∧
    getKey (.ok (recSet (recSet (recSet (recSet (recSet (recSet
      (mkBaseRec bs ks f) "comp_gt_rgb" (.optTen gt)) "comp_lr_rgb"
      (.ten t2)) "posterior" (.dist d)) "comp_gan_rgb" (.ten t4))
      "comp_rgb" (.ten t5)) "generator_level" (.level lvl), st))
      "comp_gt_rgb" = some (.optTen gt) ∧
    getKey (.ok (recSet (recSet (recSet (recSet (recSet (recSet
      (mkBaseRec bs ks f) "comp_gt_rgb" (.optTen gt)) "comp_lr_rgb"
      (.ten t2)) "posterior" (.dist d)) "comp_gan_rgb" (.ten t4))
      "comp_rgb" (.ten t5)) "generator_level" (.level lvl), st))
      "posterior" = some (.dist d) ∧
    getKey (.ok (recSet (recSet (recSet (recSet (recSet (recSet
      (mkBaseRec bs ks f) "comp_gt_rgb" (.optTen gt)) "comp_lr_rgb"
      (.ten t2)) "posterior" (.dist d)) "comp_gan_rgb" (.ten t4))
      "comp_rgb" (.ten t5)) "generator_level" (.level lvl), st))
      "generator_level" = some (.level lvl) := by
  refine ⟨?_, ?_, ?_, ?_, ?_, ?_, ?_, ?_⟩
  · intro k hk
    obtain ⟨j, hj, hg⟩ := mem_mkBaseRec_recGet bs ks k f hk
    simp only [getKey, recOf, Option.some_bind]
    exact recGet_recSet_isSome _ _ _ _ (recGet_recSet_isSome _ _ _ _
      (recGet_recSet_isSome _ _ _ _ (recGet_recSet_isSome _ _ _ _
        (recGet_recSet_isSome _ _ _ _ (recGet_recSet_isSome _ _ _ _
          (by simp [hg]))))))
  · intro k hk
    simp only [List.mem_cons, List.not_mem_nil, or_false, not_or] at hk
    obtain ⟨h1, h2, h3, h4, h5, h6⟩ := hk
    simp only [getKey, recOf, Option.some_bind]
    rw [recGet_recSet_ne _ _ _ _ h6, recGet_recSet_ne _ _ _ _ h5,
      recGet_recSet_ne _ _ _ _ h4, recGet_recSet_ne _ _ _ _ h3,
      recGet_recSet_ne _ _ _ _ h2, recGet_recSet_ne _ _ _ _ h1]
  · simp only [getKey, recOf, Option.some_bind]
    rw [recGet_recSet_ne _ _ _ _ (by decide), recGet_recSet_self]
  · simp only [getKey, recOf, Option.some_bind]
    rw [recGet_recSet_ne _ _ _ _ (by decide), recGet_recSet_ne _ _ _ _ (by decide),
      recGet_recSet_ne _ _ _ _ (by decide), recGet_recSet_ne _ _ _ _ (by decide),
      recGet_recSet_self]
  · simp only [getKey, recOf, Option.some_bind]
    rw [recGet_recSet_ne _ _ _ _ (by decide), recGet_recSet_ne _ _ _ _ (by decide),
      recGet_recSet_self]
  · simp only [getKey, recOf, Option.some_bind]
    rw [recGet_recSet_ne _ _ _ _ (by decide), recGet_recSet_ne _ _ _ _ (by decide),
      recGet_recSet_ne _ _ _ _ (by decide), recGet_recSet_ne _ _ _ _ (by decide),
      recGet_recSet_ne _ _ _ _ (by decide), recGet_recSet_self]
  · simp only [getKey, recOf, Option.some_bind]
    rw [recGet_recSet_ne _ _ _ _ (by decide), recGet_recSet_ne _ _ _ _ (by decide),
      recGet_recSet_ne _ _ _ _ (by decide), recGet_recSet_self]
  · simp only [getKey, recOf, Option.some_bind]
    rw [recGet_recSet_self]

/-- Existential form of `record_contract_core`, shaped like the output
contract of a forward call. -/
theorem record_contract_exists (bs : String → List Nat) (ks : List String)
    (f : Nat) (gt : Option Tensor) (t2 t4 t5 : Tensor) (d : Dist)
    (lvl : Nat) (st : St) :
    (∀ k, k ∈ ks →
      (getKey (.ok (recSet (recSet (recSet (recSet (recSet (recSet
        (mkBaseRec bs ks f) "comp_gt_rgb" (.optTen gt)) "comp_lr_rgb"
        (.ten t2)) "posterior" (.dist d)) "comp_gan_rgb" (.ten t4))
        "comp_rgb" (.ten t5)) "generator_level" (.level lvl), st)) k).isSome) ∧
    (∀ k, k ∉ ["comp_gt_rgb", "comp_lr_rgb", "posterior", "comp_gan_rgb",
        "comp_rgb", "generator_level"] →
      getKey (.ok (recSet (recSet (recSet (recSet (recSet (recSet
        (mkBaseRec bs ks f) "comp_gt_rgb" (.optTen gt)) "comp_lr_rgb"
        (.ten t2)) "posterior" (.dist d)) "comp_gan_rgb" (.ten t4))
        "comp_rgb" (.ten t5)) "generator_level" (.level lvl), st)) k =
        recGet (mkBaseRec bs ks f) k) ∧
    (∃ t, getKey (.ok (recSet (recSet (recSet (recSet (recSet (recSet
      (mkBaseRec bs ks f) "comp_gt_rgb" (.optTen gt)) "comp_lr_rgb"
      (.ten t2)) "posterior" (.dist d)) "comp_gan_rgb" (.ten t4))
      "comp_rgb" (.ten t5)) "generator_level" (.level lvl), st))
      "comp_rgb" = some (.ten t)) ∧
    (∃ t, getKey (.ok (recSet (recSet (recSet (recSet (recSet (recSet
      (mkBaseRec bs ks f) "comp_gt_rgb" (.optTen gt)) "comp_lr_rgb"
      (.ten t2)) "posterior" (.dist d)) "comp_gan_rgb" (.ten t4))
      "comp_rgb" (.ten t5)) "generator_level" (.level lvl), st))
      "comp_lr_rgb" = some (.ten t)) ∧
    (∃ t, getKey (.ok (recSet (recSet (recSet (recSet (recSet (recSet
      (mkBaseRec bs ks f) "comp_gt_rgb" (.optTen gt)) "comp_lr_rgb"
      (.ten t2)) "posterior" (.dist d)) "comp_gan_rgb" (.ten t4))
      "comp_rgb" (.ten t5)) "generator_level" (.level lvl), st))
      "comp_gan_rgb" = some (.ten t)) ∧
    getKey (.ok (recSet (recSet (recSet (recSet (recSet (recSet
      (mkBaseRec bs ks f) "comp_gt_rgb" (.optTen gt)) "comp_lr_rgb"
      (.ten t2)) "posterior" (.dist d)) "comp_gan_rgb" (.ten t4))
      "comp_rgb" (.ten t5)) "generator_level" (.level lvl), st))
      "comp_gt_rgb" = some (.optTen gt) ∧
    (∃ dd, getKey (.ok (recSet (recSet (recSet (recSet (recSet (recSet
      (mkBaseRec bs ks f) "comp_gt_rgb" (.optTen gt)) "comp_lr_rgb"
      (.ten t2)) "posterior" (.dist d)) "comp_gan_rgb" (.ten t4))
      "comp_rgb" (.ten t5)) "generator_level" (.level lvl), st))
      "posterior" = some (.dist dd)) ∧
    (∃ n, getKey (.ok (recSet (recSet (recSet (recSet (recSet (recSet
      (mkBaseRec bs ks f) "comp_gt_rgb" (.optTen gt)) "comp_lr_rgb"
      (.ten t2)) "posterior" (.dist d)) "comp_gan_rgb" (.ten t4))
      "comp_rgb" (.ten t5)) "generator_level" (.level lvl), st))
      "generator_level" = some (.level n)) := by
  obtain ⟨p1, p2, p3, p4, p5, p6, p7, p8⟩ :=
    record_contract_core bs ks f gt t2 t4 t5 d lvl st
  exact ⟨p1, p2, ⟨t5, p3⟩, ⟨t2, p4⟩, ⟨t4, p5⟩, p6, ⟨d, p7⟩, ⟨lvl, p8⟩⟩

/-- C4: the output record of every forward call still contains every key of
the base renderer's record; any key the orchestrator does not set keeps the
base record's entry unchanged; and the record additionally carries the
low-res composite RGB, the GAN-refined composite RGB, the echoed ground
truth, the posterior distribution object and the chosen guidance level. -/
theorem output_record_contract (bs : String → List Nat) (ks : List String)
    (B H W c : Nat) (vo : TVal) (bo : Nat) (raysD lightPositions : Tensor)
    (bgColor gtRGB : Option Tensor) (mlg : Bool) (s : St)
    (res : Except String (List (String × Entry) × St))
    (hks : "comp_rgb" ∈ ks)
    (hres : res = forward bs ks ⟨[B, H, W, c], vo, bo⟩ raysD lightPositions
      bgColor gtRGB mlg s) :
    (∀ k, k ∈ ks → (getKey res k).isSome) ∧
    (∀ k, k ∉ ["comp_gt_rgb", "comp_lr_rgb", "posterior", "comp_gan_rgb",
        "comp_rgb", "generator_level"] →
      getKey res k = recGet (mkBaseRec bs ks (s.fresh + 1 + 1)) k) ∧
    (∃ t, getKey res "comp_rgb" = some (.ten t)) ∧
    (∃ t, getKey res "comp_lr_rgb" = some (.ten t)) ∧
    (∃ t, getKey res "comp_gan_rgb" = some (.ten t)) ∧
    getKey res "comp_gt_rgb" = some (.optTen gtRGB) ∧
    (∃ d, getKey res "posterior" = some (.dist d)) ∧
    (∃ n, getKey res "generator_level" = some (.level n)) := by
  subst hres
  obtain ⟨j, hj, hget⟩ := mem_mkBaseRec_recGet bs ks "comp_rgb" (s.fresh + 1 + 1) hks
  rcases gtRGB with _ | g0
  · simp only [forward, Option.isSome_none, Bool.false_and, Bool.false_eq_true,
      if_false, interpolate, alloc, emit, baseCall, randint, Tensor.perm]
    rw [recGet_recSet_ne _ _ _ _ (by decide), hget]
    simp only [afterBase, levelBranch, cloneT, mkDist, Dist.sample, catC, generator,
      sliceLastTo, sliceLastFrom, globalEncoder, localEncoder, interpolate, alloc,
      emit, Tensor.perm]
    exact record_contract_exists _ _ _ _ _ _ _ _ _ _
  · rcases mlg with _ | _
    · simp only [forward, Option.isSome_some, Bool.and_false, Bool.false_eq_true,
        if_false, interpolate, alloc, emit, baseCall, randint, Tensor.perm]
      rw [recGet_recSet_ne _ _ _ _ (by decide), hget]
      simp only [afterBase, levelBranch, cloneT, mkDist, Dist.sample, catC, generator,
        sliceLastTo, sliceLastFrom, globalEncoder, localEncoder, interpolate, alloc,
        emit, Tensor.perm]
      exact record_contract_exists _ _ _ _ _ _ _ _ _ _
    · have hlt : s.rng.headD 0 % 3 < 3 := Nat.mod_lt _ (by norm_num)
      rcases hv : s.rng.headD 0 % 3 with _ | _ | _ | n
      any_goals omega
      all_goals (
        simp only [forward, Option.isSome_some, Bool.true_and, Bool.and_true,
          if_true, randint, Nat.zero_add, Nat.sub_zero, hv, interpolate, alloc,
          emit, baseCall, Tensor.perm]
        rw [recGet_recSet_ne _ _ _ _ (by decide), hget]
        simp only [afterBase, levelBranch, cloneT, mkDist, Dist.sample, catC,
          generator, sliceLastTo, sliceLastFrom, globalEncoder, localEncoder,
          interpolate, alloc, emit, Tensor.perm]
        exact record_contract_exists _ _ _ _ _ _ _ _ _ _)

theorem output_record_contract_witness :
    (∀ k, k ∈ ksW →
      (getKey (forward bsW ksW ⟨[1, 8, 8, 3], .sym "rays_o" 0, 0⟩ rdW lpW none
        (some gtW) true stW) k).isSome) ∧
    (∀ k, k ∉ ["comp_gt_rgb", "comp_lr_rgb", "posterior", "comp_gan_rgb",
        "comp_rgb", "generator_level"] →
      getKey (forward bsW ksW ⟨[1, 8, 8, 3], .sym "rays_o" 0, 0⟩ rdW lpW none
        (some gtW) true stW) k = recGet (mkBaseRec bsW ksW (stW.fresh + 1 + 1)) k) ∧
    (∃ t, getKey (forward bsW ksW ⟨[1, 8, 8, 3], .sym "rays_o" 0, 0⟩ rdW lpW none
      (some gtW) true stW) "comp_rgb" = some (.ten t)) ∧
    (∃ t, getKey (forward bsW ksW ⟨[1, 8, 8, 3], .sym "rays_o" 0, 0⟩ rdW lpW none
      (some gtW) true stW) "comp_lr_rgb" = some (.ten t)) ∧
    (∃ t, getKey (forward bsW ksW ⟨[1, 8, 8, 3], .sym "rays_o" 0, 0⟩ rdW lpW none
      (some gtW) true stW) "comp_gan_rgb" = some (.ten t)) ∧
    getKey (forward bsW ksW ⟨[1, 8, 8, 3], .sym "rays_o" 0, 0⟩ rdW lpW none
      (some gtW) true stW) "comp_gt_rgb" = some (.optTen (some gtW)) ∧
    (∃ d, getKey (forward bsW ksW ⟨[1, 8, 8, 3], .sym "rays_o" 0, 0⟩ rdW lpW none
      (some gtW) true stW) "posterior" = some (.dist d)) ∧
    (∃ n, getKey (forward bsW ksW ⟨[1, 8, 8, 3], .sym "rays_o" 0, 0⟩ rdW lpW none
      (some gtW) true stW) "generator_level" = some (.level n)) :=
  output_record_contract bsW ksW 1 8 8 3 (.sym "rays_o" 0) 0 rdW lpW none
    (some gtW) true stW _ (by decide) rfl

set_option maxHeartbeats 1600000 in
/-- C5: the rays handed to the base renderer are the caller's rays permuted
to NCHW, bilinearly resized to `(H / 4, W / 4)` (Nat division, i.e. floor —
the theorem has no divisibility hypothesis, so non-divisible sizes go
through without error), and permuted back; they live in fresh buffers
distinct from the caller's, and the call performs no in-place buffer
write. -/
theorem rays_downsampled_quarter (bs : String → List Nat) (ks : List String)
    (B H W c c2 : Nat) (vo vd : TVal) (bo bd : Nat)
    (lightPositions : Tensor) (bgColor gtRGB : Option Tensor) (mlg : Bool)
    (s : St) (hks : "comp_rgb" ∈ ks) (hbo : bo < s.fresh) (hbd : bd < s.fresh) :
    (stOf (forward bs ks ⟨[B, H, W, c], vo, bo⟩ ⟨[B, H, W, c2], vd, bd⟩
        lightPositions bgColor gtRGB mlg s)).map (fun t => baseCalls t.log) =
      some (baseCalls s.log ++
        [(⟨[B, H / 4, W / 4, c],
            .permute (.interp (.permute vo [0, 3, 1, 2]) (H / 4) (W / 4)) [0, 2, 3, 1],
            s.fresh⟩,
          ⟨[B, H / 4, W / 4, c2],
            .permute (.interp (.permute vd [0, 3, 1, 2]) (H / 4) (W / 4)) [0, 2, 3, 1],
            s.fresh + 1⟩,
          lightPositions, bgColor)]) ∧
    (stOf (forward bs ks ⟨[B, H, W, c], vo, bo⟩ ⟨[B, H, W, c2], vd, bd⟩
        lightPositions bgColor gtRGB mlg s)).map (fun t => writeList t.log) =
      some (writeList s.log) ∧
    s.fresh ≠ bo ∧ s.fresh + 1 ≠ bd := by
  obtain ⟨j, hj, hget⟩ := mem_mkBaseRec_recGet bs ks "comp_rgb" (s.fresh + 1 + 1) hks
  rcases gtRGB with _ | g0
  · simp only [forward, Option.isSome_none, Bool.false_and, Bool.false_eq_true,
      if_false, interpolate, alloc, emit, baseCall, randint, Tensor.perm]
    rw [recGet_recSet_ne _ _ _ _ (by decide), hget]
    simp [afterBase, levelBranch, cloneT, mkDist, Dist.sample, catC, generator,
      sliceLastTo, sliceLastFrom, globalEncoder, localEncoder, interpolate, alloc,
      emit, Tensor.perm, permShape, resizeHW, stOf, baseCalls, writeList]
    omega
  · rcases mlg with _ | _
    · simp only [forward, Option.isSome_some, Bool.and_false, Bool.false_eq_true,
        if_false, interpolate, alloc, emit, baseCall, randint, Tensor.perm]
      rw [recGet_recSet_ne _ _ _ _ (by decide), hget]
      simp [afterBase, levelBranch, cloneT, mkDist, Dist.sample, catC, generator,
        sliceLastTo, sliceLastFrom, globalEncoder, localEncoder, interpolate, alloc,
        emit, Tensor.perm, permShape, resizeHW, stOf, baseCalls, writeList]
      omega
    · have hlt : s.rng.headD 0 % 3 < 3 := Nat.mod_lt _ (by norm_num)
      rcases hv : s.rng.headD 0 % 3 with _ | _ | _ | n
      any_goals omega
      all_goals (
        simp only [forward, Option.isSome_some, Bool.true_and, Bool.and_true,
          if_true, randint, Nat.zero_add, Nat.sub_zero, hv, interpolate, alloc,
          emit, baseCall, Tensor.perm]
        rw [recGet_recSet_ne _ _ _ _ (by decide), hget]
        simp [afterBase, levelBranch, cloneT, mkDist, Dist.sample, catC, generator,
          sliceLastTo, sliceLastFrom, globalEncoder, localEncoder, interpolate, alloc,
          emit, Tensor.perm, permShape, resizeHW, stOf, baseCalls, writeList]
        omega)

theorem rays_downsampled_quarter_witness :
    (stOf (forward bsW ksW ⟨[1, 10, 10, 3], .sym "rays_o" 0, 0⟩
        ⟨[1, 10, 10, 3], .sym "rays_d" 0, 1⟩ lpW none none false stW)).map
      (fun t => baseCalls t.log) =
      some (baseCalls stW.log ++
        [(⟨[1, 10 / 4, 10 / 4, 3],
            .permute (.interp (.permute (.sym "rays_o" 0) [0, 3, 1, 2])
              (10 / 4) (10 / 4)) [0, 2, 3, 1], stW.fresh⟩,
          ⟨[1, 10 / 4, 10 / 4, 3],
            .permute (.interp (.permute (.sym "rays_d" 0) [0, 3, 1, 2])
              (10 / 4) (10 / 4)) [0, 2, 3, 1], stW.fresh + 1⟩,
          lpW, none)]) ∧
    (stOf (forward bsW ksW ⟨[1, 10, 10, 3], .sym "rays_o" 0, 0⟩
        ⟨[1, 10, 10, 3], .sym "rays_d" 0, 1⟩ lpW none none false stW)).map
      (fun t => writeList t.log) = some (writeList stW.log) ∧
    stW.fresh ≠ 0 ∧ stW.fresh + 1 ≠ 1 :=
  rays_downsampled_quarter bsW ksW 1 10 10 3 3 (.sym "rays_o" 0)
    (.sym "rays_d" 0) 0 1 lpW none none false stW (by decide) (by decide)
    (by decide)

set_option maxHeartbeats 1600000 in
/-- C6: the base composite is split at channel index 3 — the record's
`comp_lr_rgb` holds (a clone of) channels `[0:3]`, and the distribution
whose parameter map is the permuted channels-`[3:]` slice is sampled
exactly once per forward call, while the deterministic `mode()` alternative
is never evaluated. -/
theorem latent_split_and_single_sample (bs : String → List Nat)
    (ks : List String) (B H W c : Nat) (vo : TVal) (bo : Nat)
    (raysD lightPositions : Tensor) (bgColor gtRGB : Option Tensor)
    (mlg : Bool) (s : St) (hks : "comp_rgb" ∈ ks) :
    (∃ t, getKey (forward bs ks ⟨[B, H, W, c], vo, bo⟩ raysD lightPositions
        bgColor gtRGB mlg s) "comp_lr_rgb" = some (.ten t) ∧
      t.val = .sliceC (.baseOut "comp_rgb") 0 (some 3)) ∧
    (stOf (forward bs ks ⟨[B, H, W, c], vo, bo⟩ raysD lightPositions bgColor
        gtRGB mlg s)).map (fun t => countSampleOf basePosteriorVal t.log) =
      some (countSampleOf basePosteriorVal s.log + 1) ∧
    (stOf (forward bs ks ⟨[B, H, W, c], vo, bo⟩ raysD lightPositions bgColor
        gtRGB mlg s)).map (fun t => countMode t.log) = some (countMode s.log) := by
  obtain ⟨j, hj, hget⟩ := mem_mkBaseRec_recGet bs ks "comp_rgb" (s.fresh + 1 + 1) hks
  rcases gtRGB with _ | g0
  · simp only [forward, Option.isSome_none, Bool.false_and, Bool.false_eq_true,
      if_false, interpolate, alloc, emit, baseCall, randint, Tensor.perm]
    rw [recGet_recSet_ne _ _ _ _ (by decide), hget]
    simp [afterBase, levelBranch, cloneT, mkDist, Dist.sample, catC, generator,
      sliceLastTo, sliceLastFrom, globalEncoder, localEncoder, interpolate, alloc,
      emit, Tensor.perm, stOf, getKey, recOf, countSampleOf, countMode, basePosteriorVal]
    rw [recGet_recSet_ne _ _ _ _ (by decide), recGet_recSet_ne _ _ _ _ (by decide),
      recGet_recSet_ne _ _ _ _ (by decide), recGet_recSet_ne _ _ _ _ (by decide),
      recGet_recSet_self]
    exact ⟨_, rfl, rfl⟩
  · rcases mlg with _ | _
    · simp only [forward, Option.isSome_some, Bool.and_false, Bool.false_eq_true,
        if_false, interpolate, alloc, emit, baseCall, randint, Tensor.perm]
      rw [recGet_recSet_ne _ _ _ _ (by decide), hget]
      simp [afterBase, levelBranch, cloneT, mkDist, Dist.sample, catC, generator,
        sliceLastTo, sliceLastFrom, globalEncoder, localEncoder, interpolate, alloc,
        emit, Tensor.perm, stOf, getKey, recOf, countSampleOf, countMode, basePosteriorVal]
      rw [recGet_recSet_ne _ _ _ _ (by decide), recGet_recSet_ne _ _ _ _ (by decide),
        recGet_recSet_ne _ _ _ _ (by decide), recGet_recSet_ne _ _ _ _ (by decide),
        recGet_recSet_self]
      exact ⟨_, rfl, rfl⟩
    · have hlt : s.rng.headD 0 % 3 < 3 := Nat.mod_lt _ (by norm_num)
      rcases hv : s.rng.headD 0 % 3 with _ | _ | _ | n
      any_goals omega
      all_goals (
        simp only [forward, Option.isSome_some, Bool.true_and, Bool.and_true,
          if_true, randint, Nat.zero_add, Nat.sub_zero, hv, interpolate, alloc,
          emit, baseCall, Tensor.perm]
        rw [recGet_recSet_ne _ _ _ _ (by decide), hget]
        simp [afterBase, levelBranch, cloneT, mkDist, Dist.sample, catC, generator,
          sliceLastTo, sliceLastFrom, globalEncoder, localEncoder, interpolate, alloc,
          emit, Tensor.perm, stOf, getKey, recOf, countSampleOf, countMode, basePosteriorVal]
        rw [recGet_recSet_ne _ _ _ _ (by decide), recGet_recSet_ne _ _ _ _ (by decide),
          recGet_recSet_ne _ _ _ _ (by decide), recGet_recSet_ne _ _ _ _ (by decide),
          recGet_recSet_self]
        exact ⟨_, rfl, rfl⟩)

theorem latent_split_and_single_sample_witness :
    (∃ t, getKey (forward bsW ksW ⟨[1, 8, 8, 3], .sym "rays_o" 0, 0⟩ rdW lpW
        none (some gtW) true stW) "comp_lr_rgb" = some (.ten t) ∧
      t.val = .sliceC (.baseOut "comp_rgb") 0 (some 3)) ∧
    (stOf (forward bsW ksW ⟨[1, 8, 8, 3], .sym "rays_o" 0, 0⟩ rdW lpW none
        (some gtW) true stW)).map
      (fun t => countSampleOf basePosteriorVal t.log) =
      some (countSampleOf basePosteriorVal stW.log + 1) ∧
    (stOf (forward bsW ksW ⟨[1, 8, 8, 3], .sym "rays_o" 0, 0⟩ rdW lpW none
        (some gtW) true stW)).map (fun t => countMode t.log) =
      some (countMode stW.log) :=
  latent_split_and_single_sample bsW ksW 1 8 8 3 (.sym "rays_o" 0) 0 rdW lpW
    none (some gtW) true stW (by decide)

set_option maxHeartbeats 1600000 in
/-- C7: with input rays of shape `(B, H, W, 3)` and a base composite of
batch `B` with at least 3 channels, the record's `comp_rgb` value — the
low-res RGB bilinearly upsampled back to the input size — has shape exactly
`(B, H, W, 3)`.  (Pixel values need not survive the down/up round trip;
only the shape is claimed.) -/
theorem comp_rgb_roundtrip_shape (bs : String → List Nat) (ks : List String)
    (B H W h2 w2 cc : Nat) (vo : TVal) (bo : Nat)
    (raysD lightPositions : Tensor) (bgColor gtRGB : Option Tensor)
    (mlg : Bool) (s : St) (hks : "comp_rgb" ∈ ks)
    (hbs : bs "comp_rgb" = [B, h2, w2, cc]) (hcc : 3 ≤ cc) :
    ∃ t, getKey (forward bs ks ⟨[B, H, W, 3], vo, bo⟩ raysD lightPositions
        bgColor gtRGB mlg s) "comp_rgb" = some (.ten t) ∧
      t.shape = [B, H, W, 3] := by
  obtain ⟨j, hj, hget⟩ := mem_mkBaseRec_recGet bs ks "comp_rgb" (s.fresh + 1 + 1) hks
  rcases gtRGB with _ | g0
  · simp only [forward, Option.isSome_none, Bool.false_and, Bool.false_eq_true,
      if_false, interpolate, alloc, emit, baseCall, randint, Tensor.perm]
    rw [recGet_recSet_ne _ _ _ _ (by decide), hget]
    simp [afterBase, levelBranch, cloneT, mkDist, Dist.sample, catC, generator,
      sliceLastTo, sliceLastFrom, globalEncoder, localEncoder, interpolate, alloc,
      emit, Tensor.perm, getKey, recOf, hbs, min_eq_left hcc, permShape, resizeHW]
    rw [recGet_recSet_ne _ _ _ _ (by decide), recGet_recSet_self]
    exact ⟨_, rfl, rfl⟩
  · rcases mlg with _ | _
    · simp only [forward, Option.isSome_some, Bool.and_false, Bool.false_eq_true,
        if_false, interpolate, alloc, emit, baseCall, randint, Tensor.perm]
      rw [recGet_recSet_ne _ _ _ _ (by decide), hget]
      simp [afterBase, levelBranch, cloneT, mkDist, Dist.sample, catC, generator,
        sliceLastTo, sliceLastFrom, globalEncoder, localEncoder, interpolate, alloc,
        emit, Tensor.perm, getKey, recOf, hbs, min_eq_left hcc, permShape, resizeHW]
      rw [recGet_recSet_ne _ _ _ _ (by decide), recGet_recSet_self]
      exact ⟨_, rfl, rfl⟩
    · have hlt : s.rng.headD 0 % 3 < 3 := Nat.mod_lt _ (by norm_num)
      rcases hv : s.rng.headD 0 % 3 with _ | _ | _ | n
      any_goals omega
      all_goals (
        simp only [forward, Option.isSome_some, Bool.true_and, Bool.and_true,
          if_true, randint, Nat.zero_add, Nat.sub_zero, hv, interpolate, alloc,
          emit, baseCall, Tensor.perm]
        rw [recGet_recSet_ne _ _ _ _ (by decide), hget]
        simp [afterBase, levelBranch, cloneT, mkDist, Dist.sample, catC, generator,
          sliceLastTo, sliceLastFrom, globalEncoder, localEncoder, interpolate, alloc,
          emit, Tensor.perm, getKey, recOf, hbs, min_eq_left hcc, permShape, resizeHW]
        rw [recGet_recSet_ne _ _ _ _ (by decide), recGet_recSet_self]
        exact ⟨_, rfl, rfl⟩)

theorem comp_rgb_roundtrip_shape_witness :
    ∃ t, getKey (forward bsW ksW ⟨[1, 8, 8, 3], .sym "rays_o" 0, 0⟩ rdW lpW
        none (some gtW) true stW) "comp_rgb" = some (.ten t) ∧
      t.shape = [1, 8, 8, 3] :=
  comp_rgb_roundtrip_shape bsW ksW 1 8 8 2 2 19 (.sym "rays_o" 0) 0 rdW lpW
    none (some gtW) true stW (by decide) (by decide) (by decide)

theorem noalias_of_ne (a b : Nat) (hne : a ≠ b) :
    ∀ (hp : Nat → TVal) (v : TVal) (t u : Tensor), t.buf = a → u.buf = b →
      observeBuf (writeBuf hp t.buf v) u = observeBuf hp u ∧
      observeBuf (writeBuf hp u.buf v) t = observeBuf hp t := by
  intro hp v t u ht hu
  constructor
  · apply observeBuf_writeBuf_ne
    rw [ht, hu]
    omega
  · apply observeBuf_writeBuf_ne
    rw [ht, hu]
    omega

set_option maxHeartbeats 1600000 in
/-- C8: the cloned low-res output (`comp_lr_rgb`) and the GAN-refined
output (`comp_gan_rgb`) are backed by distinct buffers, so an in-place
write through either tensor leaves what is observed through the other
unchanged. -/
theorem lr_and_gan_not_aliased (bs : String → List Nat) (ks : List String)
    (B H W c : Nat) (vo : TVal) (bo : Nat) (raysD lightPositions : Tensor)
    (bgColor gtRGB : Option Tensor) (mlg : Bool) (s : St)
    (hks : "comp_rgb" ∈ ks) :
    ∃ a b : Nat,
      bufOfKey (forward bs ks ⟨[B, H, W, c], vo, bo⟩ raysD lightPositions
        bgColor gtRGB mlg s) "comp_lr_rgb" = some a ∧
      bufOfKey (forward bs ks ⟨[B, H, W, c], vo, bo⟩ raysD lightPositions
        bgColor gtRGB mlg s) "comp_gan_rgb" = some b ∧
      a ≠ b ∧
      (∀ (hp : Nat → TVal) (v : TVal) (t u : Tensor), t.buf = a → u.buf = b →
        observeBuf (writeBuf hp t.buf v) u = observeBuf hp u ∧
        observeBuf (writeBuf hp u.buf v) t = observeBuf hp t) := by
  obtain ⟨j, hj, hget⟩ := mem_mkBaseRec_recGet bs ks "comp_rgb" (s.fresh + 1 + 1) hks
  rcases gtRGB with _ | g0
  · refine ⟨s.fresh + 1 + 1 + ks.length,
      s.fresh + 1 + 1 + ks.length + 1 + 1 + 1 + 1 + 1 + 1 + 1, ?_, ?_,
      by omega, noalias_of_ne _ _ (by omega)⟩
    all_goals (
      simp only [forward, Option.isSome_none, Bool.false_and, Bool.false_eq_true,
        if_false, interpolate, alloc, emit, baseCall, randint, Tensor.perm]
      rw [recGet_recSet_ne _ _ _ _ (by decide), hget]
      simp [afterBase, levelBranch, cloneT, mkDist, Dist.sample, catC, generator,
        sliceLastTo, sliceLastFrom, globalEncoder, localEncoder, interpolate, alloc,
        emit, Tensor.perm, bufOfKey, getKey, recOf]
      rw [recGet_recSet_ne _ _ _ _ (by decide), recGet_recSet_ne _ _ _ _ (by decide)]
      try rw [recGet_recSet_ne _ _ _ _ (by decide), recGet_recSet_ne _ _ _ _ (by decide)]
      rw [recGet_recSet_self])
  · rcases mlg with _ | _
    · refine ⟨s.fresh + 1 + 1 + ks.length,
        s.fresh + 1 + 1 + ks.length + 1 + 1 + 1 + 1 + 1 + 1 + 1, ?_, ?_,
        by omega, noalias_of_ne _ _ (by omega)⟩
      all_goals (
        simp only [forward, Option.isSome_some, Bool.and_false, Bool.false_eq_true,
          if_false, interpolate, alloc, emit, baseCall, randint, Tensor.perm]
        rw [recGet_recSet_ne _ _ _ _ (by decide), hget]
        simp [afterBase, levelBranch, cloneT, mkDist, Dist.sample, catC, generator,
          sliceLastTo, sliceLastFrom, globalEncoder, localEncoder, interpolate, alloc,
          emit, Tensor.perm, bufOfKey, getKey, recOf]
        rw [recGet_recSet_ne _ _ _ _ (by decide), recGet_recSet_ne _ _ _ _ (by decide)]
        try rw [recGet_recSet_ne _ _ _ _ (by decide), recGet_recSet_ne _ _ _ _ (by decide)]
        rw [recGet_recSet_self])
    · have hlt : s.rng.headD 0 % 3 < 3 := Nat.mod_lt _ (by norm_num)
      rcases hv : s.rng.headD 0 % 3 with _ | _ | _ | n
      any_goals omega
      · refine ⟨s.fresh + 1 + 1 + ks.length,
          s.fresh + 1 + 1 + ks.length + 1 + 1 + 1 + 1 + 1 + 1 + 1, ?_, ?_,
          by omega, noalias_of_ne _ _ (by omega)⟩
        all_goals (
          simp only [forward, Option.isSome_some, Bool.true_and, Bool.and_true,
            if_true, randint, Nat.zero_add, Nat.sub_zero, hv, interpolate, alloc,
            emit, baseCall, Tensor.perm]
          rw [recGet_recSet_ne _ _ _ _ (by decide), hget]
          simp [afterBase, levelBranch, cloneT, mkDist, Dist.sample, catC, generator,
            sliceLastTo, sliceLastFrom, globalEncoder, localEncoder, interpolate, alloc,
            emit, Tensor.perm, bufOfKey, getKey, recOf]
          rw [recGet_recSet_ne _ _ _ _ (by decide), recGet_recSet_ne _ _ _ _ (by decide)]
          try rw [recGet_recSet_ne _ _ _ _ (by decide), recGet_recSet_ne _ _ _ _ (by decide)]
          rw [recGet_recSet_self])
      · refine ⟨s.fresh + 1 + 1 + ks.length,
          s.fresh + 1 + 1 + ks.length + 1 + 1 + 1 + 1 + 1 + 1 + 1, ?_, ?_,
          by omega, noalias_of_ne _ _ (by omega)⟩
        all_goals (
          simp only [forward, Option.isSome_some, Bool.true_and, Bool.and_true,
            if_true, randint, Nat.zero_add, Nat.sub_zero, hv, interpolate, alloc,
            emit, baseCall, Tensor.perm]
          rw [recGet_recSet_ne _ _ _ _ (by decide), hget]
          simp [afterBase, levelBranch, cloneT, mkDist, Dist.sample, catC, generator,
            sliceLastTo, sliceLastFrom, globalEncoder, localEncoder, interpolate, alloc,
            emit, Tensor.perm, bufOfKey, getKey, recOf]
          rw [recGet_recSet_ne _ _ _ _ (by decide), recGet_recSet_ne _ _ _ _ (by decide)]
          try rw [recGet_recSet_ne _ _ _ _ (by decide), recGet_recSet_ne _ _ _ _ (by decide)]
          rw [recGet_recSet_self])
      · refine ⟨s.fresh + 1 + 1 + ks.length,
          s.fresh + 1 + 1 + ks.length + 1 + 1 + 1 + 1 + 1 + 1 + 1 + 1 + 1 + 1 + 1,
          ?_, ?_, by omega, noalias_of_ne _ _ (by omega)⟩
        all_goals (
          simp only [forward, Option.isSome_some, Bool.true_and, Bool.and_true,
            if_true, randint, Nat.zero_add, Nat.sub_zero, hv, interpolate, alloc,
            emit, baseCall, Tensor.perm]
          rw [recGet_recSet_ne _ _ _ _ (by decide), hget]
          simp [afterBase, levelBranch, cloneT, mkDist, Dist.sample, catC, generator,
            sliceLastTo, sliceLastFrom, globalEncoder, localEncoder, interpolate, alloc,
            emit, Tensor.perm, bufOfKey, getKey, recOf]
          rw [recGet_recSet_ne _ _ _ _ (by decide), recGet_recSet_ne _ _ _ _ (by decide)]
          try rw [recGet_recSet_ne _ _ _ _ (by decide), recGet_recSet_ne _ _ _ _ (by decide)]
          rw [recGet_recSet_self])

theorem lr_and_gan_not_aliased_witness :
    ∃ a b : Nat,
      bufOfKey (forward bsW ksW ⟨[1, 8, 8, 3], .sym "rays_o" 0, 0⟩ rdW lpW
        none (some gtW) true stW) "comp_lr_rgb" = some a ∧
      bufOfKey (forward bsW ksW ⟨[1, 8, 8, 3], .sym "rays_o" 0, 0⟩ rdW lpW
        none (some gtW) true stW) "comp_gan_rgb" = some b ∧
      a ≠ b ∧
      (∀ (hp : Nat → TVal) (v : TVal) (t u : Tensor), t.buf = a → u.buf = b →
        observeBuf (writeBuf hp t.buf v) u = observeBuf hp u ∧
        observeBuf (writeBuf hp u.buf v) t = observeBuf hp t) :=
  lr_and_gan_not_aliased bsW ksW 1 8 8 3 (.sym "rays_o" 0) 0 rdW lpW none
    (some gtW) true stW (by decide)

set_option maxHeartbeats 1600000 in
/-- C10: the distribution returned under the `posterior` key depends on the
guidance level — at level 2 it is the distribution built from the local
encoder's output on the ground-truth RGB (which is a different parameter
map than the base-renderer-derived one), while at levels 0 and 1 it is the
distribution built from the base renderer's latent channels. -/
theorem posterior_key_by_level (bs : String → List Nat) (ks : List String)
    (B H W c : Nat) (vo : TVal) (bo : Nat) (raysD lightPositions : Tensor)
    (bgColor gtRGB : Option Tensor) (mlg : Bool) (s : St)
    (hks : "comp_rgb" ∈ ks) :
    ((if gtRGB.isSome && mlg then s.rng.headD 0 % 3 else 0) = 2 →
      ∃ gt0, gtRGB = some gt0 ∧
        posteriorParamsVal (forward bs ks ⟨[B, H, W, c], vo, bo⟩ raysD
          lightPositions bgColor gtRGB mlg s) =
            some (localPosteriorVal gt0.val) ∧
        localPosteriorVal gt0.val ≠ basePosteriorVal) ∧
    ((if gtRGB.isSome && mlg then s.rng.headD 0 % 3 else 0) ≠ 2 →
      posteriorParamsVal (forward bs ks ⟨[B, H, W, c], vo, bo⟩ raysD
        lightPositions bgColor gtRGB mlg s) = some basePosteriorVal) := by
  obtain ⟨j, hj, hget⟩ := mem_mkBaseRec_recGet bs ks "comp_rgb" (s.fresh + 1 + 1) hks
  rcases gtRGB with _ | g0
  · refine ⟨?_, ?_⟩
    · intro h
      simp at h
    · intro _
      simp only [forward, Option.isSome_none, Bool.false_and, Bool.false_eq_true,
        if_false, interpolate, alloc, emit, baseCall, randint, Tensor.perm]
      rw [recGet_recSet_ne _ _ _ _ (by decide), hget]
      simp [afterBase, levelBranch, cloneT, mkDist, Dist.sample, catC, generator,
        sliceLastTo, sliceLastFrom, globalEncoder, localEncoder, interpolate, alloc,
        emit, Tensor.perm, posteriorParamsVal, getKey, recOf, basePosteriorVal]
      rw [recGet_recSet_ne _ _ _ _ (by decide), recGet_recSet_ne _ _ _ _ (by decide),
        recGet_recSet_ne _ _ _ _ (by decide), recGet_recSet_self]
  · rcases mlg with _ | _
    · refine ⟨?_, ?_⟩
      · intro h
        simp at h
      · intro _
        simp only [forward, Option.isSome_some, Bool.and_false, Bool.false_eq_true,
          if_false, interpolate, alloc, emit, baseCall, randint, Tensor.perm]
        rw [recGet_recSet_ne _ _ _ _ (by decide), hget]
        simp [afterBase, levelBranch, cloneT, mkDist, Dist.sample, catC, generator,
          sliceLastTo, sliceLastFrom, globalEncoder, localEncoder, interpolate, alloc,
          emit, Tensor.perm, posteriorParamsVal, getKey, recOf, basePosteriorVal]
        rw [recGet_recSet_ne _ _ _ _ (by decide), recGet_recSet_ne _ _ _ _ (by decide),
          recGet_recSet_ne _ _ _ _ (by decide), recGet_recSet_self]
    · have hlt : s.rng.headD 0 % 3 < 3 := Nat.mod_lt _ (by norm_num)
      rcases hv : s.rng.headD 0 % 3 with _ | _ | _ | n
      any_goals omega
      · refine ⟨?_, ?_⟩
        · intro h
          simp [hv] at h
        · intro _
          simp only [forward, Option.isSome_some, Bool.true_and, Bool.and_true,
            if_true, randint, Nat.zero_add, Nat.sub_zero, hv, interpolate, alloc,
            emit, baseCall, Tensor.perm]
          rw [recGet_recSet_ne _ _ _ _ (by decide), hget]
          simp [afterBase, levelBranch, cloneT, mkDist, Dist.sample, catC, generator,
            sliceLastTo, sliceLastFrom, globalEncoder, localEncoder, interpolate, alloc,
            emit, Tensor.perm, posteriorParamsVal, getKey, recOf, basePosteriorVal]
          rw [recGet_recSet_ne _ _ _ _ (by decide), recGet_recSet_ne _ _ _ _ (by decide),
            recGet_recSet_ne _ _ _ _ (by decide), recGet_recSet_self]
      · refine ⟨?_, ?_⟩
        · intro h
          simp [hv] at h
        · intro _
          simp only [forward, Option.isSome_some, Bool.true_and, Bool.and_true,
            if_true, randint, Nat.zero_add, Nat.sub_zero, hv, interpolate, alloc,
            emit, baseCall, Tensor.perm]
          rw [recGet_recSet_ne _ _ _ _ (by decide), hget]
          simp [afterBase, levelBranch, cloneT, mkDist, Dist.sample, catC, generator,
            sliceLastTo, sliceLastFrom, globalEncoder, localEncoder, interpolate, alloc,
            emit, Tensor.perm, posteriorParamsVal, getKey, recOf, basePosteriorVal]
          rw [recGet_recSet_ne _ _ _ _ (by decide), recGet_recSet_ne _ _ _ _ (by decide),
            recGet_recSet_ne _ _ _ _ (by decide), recGet_recSet_self]
      · refine ⟨?_, ?_⟩
        · intro _
          refine ⟨g0, rfl, ?_, by simp [localPosteriorVal, basePosteriorVal]⟩
          simp only [forward, Option.isSome_some, Bool.true_and, Bool.and_true,
            if_true, randint, Nat.zero_add, Nat.sub_zero, hv, interpolate, alloc,
            emit, baseCall, Tensor.perm]
          rw [recGet_recSet_ne _ _ _ _ (by decide), hget]
          simp [afterBase, levelBranch, cloneT, mkDist, Dist.sample, catC, generator,
            sliceLastTo, sliceLastFrom, globalEncoder, localEncoder, interpolate, alloc,
            emit, Tensor.perm, posteriorParamsVal, getKey, recOf, localPosteriorVal]
          rw [recGet_recSet_ne _ _ _ _ (by decide), recGet_recSet_ne _ _ _ _ (by decide),
            recGet_recSet_ne _ _ _ _ (by decide), recGet_recSet_self]
        · intro h
          simp [hv] at h

theorem posterior_key_by_level_witness :
    ((if (some gtW).isSome && true then stW.rng.headD 0 % 3 else 0) = 2 →
      ∃ gt0, some gtW = some gt0 ∧
        posteriorParamsVal (forward bsW ksW ⟨[1, 8, 8, 3], .sym "rays_o" 0, 0⟩
          rdW lpW none (some gtW) true stW) =
            some (localPosteriorVal gt0.val) ∧
        localPosteriorVal gt0.val ≠ basePosteriorVal) ∧
    ((if (some gtW).isSome && true then stW.rng.headD 0 % 3 else 0) ≠ 2 →
      posteriorParamsVal (forward bsW ksW ⟨[1, 8, 8, 3], .sym "rays_o" 0, 0⟩
        rdW lpW none (some gtW) true stW) = some basePosteriorVal) :=
  posterior_key_by_level bsW ksW 1 8 8 3 (.sym "rays_o" 0) 0 rdW lpW none
    (some gtW) true stW (by decide)

/-- C9: `update_step`, `train` and `eval` delegate to the wrapped base
renderer: the base state evolves exactly by the base renderer's own
transition, the return value of `train`/`eval` is the base renderer's
return value, and none of the orchestrator's own module fields change —
the orchestrator holds no independent state for these calls (`eval` is
torch's `train(False)` on the base renderer). -/
theorem lifecycle_delegation {σ : Type} (bu : σ → Nat → Nat → Bool → σ)
    (bt : σ → Bool → σ) (r : GANVolumeRenderer σ) (epoch globalStep : Nat)
    (onLoadWeights mode : Bool) :
    (GANVolumeRenderer.updateStep bu r epoch globalStep onLoadWeights).base =
      bu r.base epoch globalStep onLoadWeights ∧
    (GANVolumeRenderer.updateStep bu r epoch globalStep
      onLoadWeights).generatorModule = r.generatorModule ∧
    (GANVolumeRenderer.updateStep bu r epoch globalStep
      onLoadWeights).localEncoderModule = r.localEncoderModule ∧
    (GANVolumeRenderer.updateStep bu r epoch globalStep
      onLoadWeights).globalEncoderModule = r.globalEncoderModule ∧
    (GANVolumeRenderer.updateStep bu r epoch globalStep
      onLoadWeights).discriminatorModule = r.discriminatorModule ∧
    (GANVolumeRenderer.trainM bt r mode).1.base = bt r.base mode ∧
    (GANVolumeRenderer.trainM bt r mode).2 = bt r.base mode ∧
    (GANVolumeRenderer.trainM bt r mode).1.generatorModule =
      r.generatorModule ∧
    (GANVolumeRenderer.trainM bt r mode).1.localEncoderModule =
      r.localEncoderModule ∧
    (GANVolumeRenderer.trainM bt r mode).1.globalEncoderModule =
      r.globalEncoderModule ∧
    (GANVolumeRenderer.trainM bt r mode).1.discriminatorModule =
      r.discriminatorModule ∧
    GANVolumeRenderer.evalM bt r = GANVolumeRenderer.trainM bt r false :=
  ⟨rfl, rfl, rfl, rfl, rfl, rfl, rfl, rfl, rfl, rfl, rfl, rfl⟩

end GANVR
